import Mathlib

/-!
Shallow embedding of the placement policy engine of
`satellite/overlay/placement.go`: the country/region set algebra, the node
filter algebra, the rule built-ins (`country`, `placement`, `all`, `&&`),
the definition-string loader `AddPlacementFromString`, the lookup
`CreateFilters`, and the external description `String`.

Go runtime faults (out-of-range indexing, failed type assertions on nil)
are modelled by `Option.none` wrapped around the result type; Go `error`
returns are modelled by `Except Err`.
-/

namespace Storj

/-- Country codes. Modelled from the spec: an opaque code from a fixed
enumeration (the `location` package of the external common library), with the
sentinel `None` for unknown/unset. The enumeration is restricted to the codes
the placement engine references: the EU members, the EEA-minus-EU members,
and the countries of the legacy static rules. -/
inductive CountryCode where
  | None
  | US | RU | BY
  | AT | BE | BG | HR | CY | CZ | DK | EE | FI | FR | DE | GR | HU | IE | IT
  | LV | LT | LU | MT | NL | PL | PT | RO | SK | SI | ES | SE
  | IS | LI | NO
deriving DecidableEq, Fintype, Repr

/-- Modelled from the spec: `location.ToCountryCode` parses a country string
case-insensitively into the fixed enumeration; unknown strings map to the
`None` sentinel. -/
def toCountryCode (s : String) : CountryCode :=
  let u := String.mk (s.data.map Char.toUpper)
  if u = "US" then .US else if u = "RU" then .RU else if u = "BY" then .BY
  else if u = "AT" then .AT else if u = "BE" then .BE else if u = "BG" then .BG
  else if u = "HR" then .HR else if u = "CY" then .CY else if u = "CZ" then .CZ
  else if u = "DK" then .DK else if u = "EE" then .EE else if u = "FI" then .FI
  else if u = "FR" then .FR else if u = "DE" then .DE else if u = "GR" then .GR
  else if u = "HU" then .HU else if u = "IE" then .IE else if u = "IT" then .IT
  else if u = "LV" then .LV else if u = "LT" then .LT else if u = "LU" then .LU
  else if u = "MT" then .MT else if u = "NL" then .NL else if u = "PL" then .PL
  else if u = "PT" then .PT else if u = "RO" then .RO else if u = "SK" then .SK
  else if u = "SI" then .SI else if u = "ES" then .ES else if u = "SE" then .SE
  else if u = "IS" then .IS else if u = "LI" then .LI else if u = "NO" then .NO
  else .None

/-- A `location.Set`: a finite set of country codes (the Go implementation is
a bit set, so value equality is set equality). -/
abbrev LocSet := Finset CountryCode

/-- `location.Set.With`: adds the given codes, returning a new set. -/
def withCodes (s : LocSet) (codes : List CountryCode) : LocSet :=
  codes.foldl (fun acc c => insert c acc) s

/-- `location.Set.Without`: removes the given codes, returning a new set. -/
def withoutCodes (s : LocSet) (codes : List CountryCode) : LocSet :=
  codes.foldl (fun acc c => acc.erase c) s

/-- `location.NewSet`: the set of exactly the given codes. -/
def newSet (codes : List CountryCode) : LocSet :=
  withCodes ∅ codes

/-- Modelled from the spec: `location.NewFullSet` yields the universe of all
known codes (the `None` sentinel is not a known country). -/
def fullSet : LocSet :=
  Finset.univ.erase CountryCode.None

/-- Modelled from the spec: `nodeselection.EuCountries`, the fixed EU code
list. -/
def euCountries : List CountryCode :=
  [.AT, .BE, .BG, .HR, .CY, .CZ, .DK, .EE, .FI, .FR, .DE, .GR, .HU, .IE,
   .IT, .LV, .LT, .LU, .MT, .NL, .PL, .PT, .RO, .SK, .SI, .ES, .SE]

/-- Modelled from the spec: `nodeselection.EeaCountriesWithoutEu`, the fixed
EEA-minus-EU code list. -/
def eeaCountriesWithoutEu : List CountryCode :=
  [.IS, .LI, .NO]

/-- Node filters (the `nodeselection` filter variants constructed by
`placement.go`): accept-all, deny-all, country membership, tag match,
conjunction list (`NodeFilters`), negation wrapper, annotation wrapper. -/
inductive NodeFilter where
  | anyFilter
  | excludeAll
  | countryFilter (included : LocSet)
  | tagFilter (nodeID : String) (key : String) (value : List Nat) (notMatch : Bool)
  | nodeFilters (members : List NodeFilter)
  | excludeFilter (inner : NodeFilter)
  | annotated (inner : NodeFilter) (anns : List (String × String))

/-- The per-node attribute view consumed at match time. Modelled from the
spec: country code, and tag values keyed by (signer node id, key). -/
structure NodeAttrs where
  country : CountryCode
  tags : List (String × String × List Nat)

/-- Modelled from the spec: `Match` of the filter algebra. AcceptAll is
always true, DenyAll always false, country membership is set containment,
tag match compares the raw value of the (nodeID, key) tag (a node lacking
the tag never matches), a conjunction matches when every member matches,
the negation wrapper inverts, and annotations are inert. -/
def matchFilter : NodeFilter → NodeAttrs → Bool
  | .anyFilter, _ => true
  | .excludeAll, _ => false
  | .countryFilter s, n => decide (n.country ∈ s)
  | .tagFilter fid key v notM, n =>
      match n.tags.find? (fun t => t.1 = fid && t.2.1 = key) with
      | some t => if notM then decide (t.2.2 ≠ v) else decide (t.2.2 = v)
      | none => false
  | .nodeFilters [], _ => true
  | .nodeFilters (f :: rest), n => matchFilter f n && matchFilter (.nodeFilters rest) n
  | .excludeFilter f, n => ! matchFilter f n
  | .annotated f _, n => matchFilter f n

/-- Errors produced while loading placement definitions, carrying exactly the
data the Go code feeds into the error constructors. -/
inductive Err where
  | invalidCountryCode (code : CountryCode)
  | atoiFailed (s : String)
  | parseFailed (s : String)
  | typeErr (s : String)
  | unknownBuiltin (s : String)
  | andTypeError
deriving DecidableEq, Repr

/-- `apply` of the `country` built-in: `With` by default, switched to
`Without` when the token carried a leading `!`. -/
def countryApply (neg : Bool) (s : LocSet) (codes : List CountryCode) : LocSet :=
  if neg then withoutCodes s codes else withCodes s codes

/-- Body of the `country` built-in for one token after the `!` prefix has
been handled: the case-insensitive switch over the special tokens, falling
back to `location.ToCountryCode`. As in the source, `all`/`*`/`any` replace
the accumulated set with the full set without using `apply`, and an invalid
token produces the error `invalid country code %q` applied to the converted
code (which at that point is the `None` sentinel), not to the input token. -/
def countryTok (set : LocSet) (neg : Bool) (tokC : List Char) : Option (Except Err LocSet) :=
  let ls := String.mk (tokC.map Char.toLower)
  if ls = "all" ∨ ls = "*" ∨ ls = "any" then some (Except.ok fullSet)
  else if ls = "none" then some (Except.ok (countryApply neg set [CountryCode.None]))
  else if ls = "eu" then some (Except.ok (countryApply neg set euCountries))
  else if ls = "eea" then
    some (Except.ok (countryApply neg (countryApply neg set euCountries) eeaCountriesWithoutEu))
  else
    let code := toCountryCode (String.mk tokC)
    if code = CountryCode.None then some (Except.error (Err.invalidCountryCode code))
    else some (Except.ok (countryApply neg set [code]))

/-- One iteration of the `country` built-in's loop. The Go code first reads
`country[0]`; on the empty token this indexing is out of range, a runtime
fault modelled as `Option.none`. -/
def countryStepChars (set : LocSet) : List Char → Option (Except Err LocSet)
  | [] => Option.none
  | c :: rest => if c = '!' then countryTok set true rest else countryTok set false (c :: rest)

/-- The loop of the `country` built-in over its token list, accumulating the
set (the Go zero value `location.Set` is the empty set). -/
def countryGo (set : LocSet) : List String → Option (Except Err LocSet)
  | [] => some (Except.ok set)
  | t :: rest =>
    match countryStepChars set t.data with
    | Option.none => Option.none
    | some (Except.error e) => some (Except.error e)
    | some (Except.ok s') => countryGo s' rest

/-- The `country(countries ...string)` built-in of `AddPlacementFromString`:
folds the tokens into a set and wraps it as `NodeFilters{NewCountryFilter(set)}`. -/
def countryBuiltin (tokens : List String) : Option (Except Err NodeFilter) :=
  match countryGo ∅ tokens with
  | Option.none => Option.none
  | some (Except.error e) => some (Except.error e)
  | some (Except.ok set) =>
      some (Except.ok (NodeFilter.nodeFilters [NodeFilter.countryFilter set]))

/-- The registry map `placements`: placement identifier (a uint16 in Go,
modelled as the Nat below 65536) to node filter. -/
abbrev Registry := List (Nat × NodeFilter)

/-- Go map assignment `d.placements[id] = f`: replace the binding if present,
otherwise add it. -/
def regInsert (d : Registry) (k : Nat) (f : NodeFilter) : Registry :=
  match d with
  | [] => [(k, f)]
  | (k', f') :: rest =>
      if k' = k then (k, f) :: rest else (k', f') :: regInsert rest k f

/-- Go map access `d.placements[id]` as an optional value (`none` when the
key is absent, in which case Go yields the zero value of the value type). -/
def regLookup (d : Registry) (k : Nat) : Option NodeFilter :=
  match d with
  | [] => none
  | (k', f') :: rest => if k' = k then some f' else regLookup rest k

/-- Conversion of a Go integer to `storj.PlacementConstraint` (uint16):
truncation to the low 16 bits. -/
def placementKey (ix : Int) : Nat :=
  (ix % 65536).toNat

/-- Values an evaluated placement expression can take in the fragment the
claims exercise: a node filter, or the nil interface that Go map access
yields for a missing placement id. -/
inductive Value where
  | filter (f : NodeFilter)
  | nilFilter

/-- The `placement(ix int64)` built-in: a direct map access
`d.placements[storj.PlacementConstraint(ix)]`, whose result for an absent id
is the zero value of the interface type, i.e. nil. -/
def placementBuiltin (d : Registry) (ix : Int) : Value :=
  match regLookup d (placementKey ix) with
  | some f => Value.filter f
  | none => Value.nilFilter

/-- The `all(filters ...NodeFilters)` built-in: starts from the empty
`NodeFilters` and appends the members of every argument, i.e. concatenation
of the argument lists (the source's error result is always nil). -/
def allBuiltin (filters : List (List NodeFilter)) : NodeFilter :=
  NodeFilter.nodeFilters (filters.foldl (fun res f => res ++ f) [])

/-- The `mito.OpAnd` handler: both operands must assert to
`nodeselection.NodeFilter` (a nil operand fails the ok-form assertion),
and the result is the two-member list `NodeFilters{filter1, filter2}`. -/
def opAndBuiltin (a b : Value) : Except Err Value :=
  match a, b with
  | Value.filter f1, Value.filter f2 =>
      Except.ok (Value.filter (NodeFilter.nodeFilters [f1, f2]))
  | _, _ => Except.error Err.andTypeError

/-- Character-level model of `strings.Split`: split at every separator. -/
def splitChars (sep : Char) : List Char → List (List Char)
  | [] => [[]]
  | ch :: rest =>
    match splitChars sep rest with
    | [] => [[]]
    | cur :: parts => if ch = sep then [] :: cur :: parts else (ch :: cur) :: parts

/-- `strings.Split(s, ";")` on the definitions string. -/
def goSplit (s : String) (sep : Char) : List String :=
  (splitChars sep s.data).map String.mk

/-- Locates the first occurrence of the separator, returning the pieces
before and after it. -/
def splitFirst (sep : Char) : List Char → Option (List Char × List Char)
  | [] => none
  | ch :: rest =>
    if ch = sep then some ([], rest)
    else (splitFirst sep rest).map (fun p => (ch :: p.1, p.2))

/-- `strings.SplitN(s, ":", 2)`: one part when the separator is absent, two
parts split at its first occurrence otherwise. -/
def splitN2 (s : String) (sep : Char) : List String :=
  match splitFirst sep s.data with
  | none => [s]
  | some (a, b) => [String.mk a, String.mk b]

/-- ASCII whitespace (the claims only exercise ASCII entries; Go's
`strings.TrimSpace` also trims other Unicode space). -/
def isWS (c : Char) : Bool :=
  c = ' ' ∨ c = '\t' ∨ c = '\n' ∨ c = '\r'

/-- Character-level trim of leading and trailing whitespace. -/
def trimCharsWS (l : List Char) : List Char :=
  (((l.dropWhile isWS).reverse.dropWhile isWS)).reverse

/-- `strings.TrimSpace` applied to each definition entry. -/
def goTrimSpace (s : String) : String :=
  String.mk (trimCharsWS s.data)

/-- `strconv.Atoi`: optional sign followed by at least one ASCII digit,
nothing else, within the 64-bit signed range. -/
def goAtoi (s : String) : Except Err Int :=
  let (sgn, digits) :=
    match s.data with
    | '-' :: ds => ((-1 : Int), ds)
    | '+' :: ds => ((1 : Int), ds)
    | ds => ((1 : Int), ds)
  if digits ≠ [] ∧ digits.all Char.isDigit then
    let m : Nat := digits.foldl (fun a c => a * 10 + (c.toNat - 48)) 0
    if (sgn = 1 ∧ m ≥ 2 ^ 63) ∨ (sgn = -1 ∧ m > 2 ^ 63) then
      Except.error (Err.atoiFailed s)
    else Except.ok (sgn * (m : Int))
  else Except.error (Err.atoiFailed s)

/-- Literal arguments of the flat-call expression fragment. -/
inductive Lit where
  | strL (s : String)
  | intL (n : Int)

/-- Expressions of the flat-call fragment: one built-in applied to literal
arguments. -/
inductive RuleExpr where
  | call (fn : String) (args : List Lit)

/-- Parses one literal argument: a double-quoted string (no escapes in the
modelled fragment) or a decimal integer. -/
def parseLit (cs : List Char) : Option Lit :=
  let t := trimCharsWS cs
  if t.head? = some '"' ∧ t.getLast? = some '"' ∧ 2 ≤ t.length then
    some (Lit.strL (String.mk (t.drop 1).dropLast))
  else if t ≠ [] ∧ t.all Char.isDigit then
    some (Lit.intL (t.foldl (fun a c => a * 10 + ((c.toNat - 48 : Nat) : Int)) 0))
  else Option.none

/-- Modelled from the spec (§4.3): the external `mito` expression parser,
restricted to the flat-call fragment `name(lit, ...)` that the definition
strings of this development use; anything outside the fragment is a parse
failure. -/
def parseRuleExpr (s : String) : Option RuleExpr :=
  let t := trimCharsWS s.data
  match splitChars '(' t with
  | [nmChars, rest] =>
    if rest.getLast? = some ')' ∧ ¬ rest.dropLast.contains ')' then
      let inner := rest.dropLast
      let nm := trimCharsWS nmChars
      if nm ≠ [] ∧ nm.all Char.isAlpha then
        if trimCharsWS inner = [] then some (RuleExpr.call (String.mk nm) [])
        else
          match (splitChars ',' inner).mapM parseLit with
          | some args => some (RuleExpr.call (String.mk nm) args)
          | Option.none => Option.none
      else Option.none
    else Option.none
  | _ => Option.none

/-- Extracts the string arguments of a call (the conversion `mito` performs
to invoke `country(countries ...string)`). -/
def litStrings (args : List Lit) : Option (List String) :=
  args.mapM (fun a => match a with | Lit.strL s => some s | Lit.intL _ => Option.none)

/-- Dispatch of a parsed call to the built-in environment of
`AddPlacementFromString` (the built-ins the claims exercise; the remaining
entries of the environment are never reachable through the flat-call
fragment). -/
def evalCall (d : Registry) (fn : String) (args : List Lit) : Option (Except Err Value) :=
  if fn = "country" then
    match litStrings args with
    | Option.none => some (Except.error (Err.typeErr fn))
    | some tokens =>
      match countryBuiltin tokens with
      | Option.none => Option.none
      | some (Except.error e) => some (Except.error e)
      | some (Except.ok f) => some (Except.ok (Value.filter f))
  else if fn = "placement" then
    match args with
    | [Lit.intL ix] => some (Except.ok (placementBuiltin d ix))
    | _ => some (Except.error (Err.typeErr fn))
  else some (Except.error (Err.unknownBuiltin fn))

/-- `mito.Eval(expression, env)` over the modelled fragment: parse, then
evaluate against the built-in environment (which closes over the registry
being built). -/
def mitoEval (s : String) (d : Registry) : Option (Except Err Value) :=
  match parseRuleExpr s with
  | Option.none => some (Except.error (Err.parseFailed s))
  | some (RuleExpr.call fn args) => evalCall d fn args

/-- The body of the loop of `AddPlacementFromString` for one entry:
trim; skip empty entries; split on the first `:` (an entry without `:` makes
`idDef[1]` an out-of-range index, a runtime fault); evaluate the expression;
parse the id; store `val.(nodeselection.NodeFilter)` (the assertion on a
non-filter or nil value is a runtime fault). -/
def processEntry (d : Registry) (entry : String) : Option (Registry × Option Err) :=
  let definition := goTrimSpace entry
  if definition = "" then some (d, Option.none)
  else
    match splitN2 definition ':' with
    | [idStr, exprStr] =>
      match mitoEval exprStr d with
      | Option.none => Option.none
      | some (Except.error e) => some (d, some e)
      | some (Except.ok v) =>
        match goAtoi idStr with
        | Except.error e => some (d, some e)
        | Except.ok id =>
          match v with
          | Value.filter f => some (regInsert d (placementKey id) f, Option.none)
          | Value.nilFilter => Option.none
    | _ => Option.none

/-- The loop of `AddPlacementFromString`: entries are processed in order;
the first failing entry stops the loop with an error, keeping the
registrations committed by the earlier entries. -/
def runEntries (d : Registry) : List String → Option (Registry × Option Err)
  | [] => some (d, Option.none)
  | e :: rest =>
    match processEntry d e with
    | Option.none => Option.none
    | some (d', some err) => some (d', some err)
    | some (d', Option.none) => runEntries d' rest

/-- `AddPlacementFromString(definitions)`: split on `;` and run the loop.
The result pairs the final registry state with `none` on success or the
returned error; the outer `Option.none` is a Go runtime fault. -/
def addPlacementFromString (d : Registry) (definitions : String) : Option (Registry × Option Err) :=
  runEntries d (goSplit definitions ';')

/-- `NewPlacementRules()`: the registry seeded with `storj.EveryCountry`
(identifier 0) bound to `AnyFilter`. -/
def newPlacementRules : Registry :=
  [(0, NodeFilter.anyFilter)]

/-- `AddLegacyStaticRules()`: the legacy placements EEA, EU, US, DE and NR
(their reserved identifiers, all at most 9, are modelled from the spec's
reserved range as 2, 1, 3, 4 and 6). -/
def addLegacyStaticRules (d : Registry) : Registry :=
  regInsert
    (regInsert
      (regInsert
        (regInsert
          (regInsert d 2
            (NodeFilter.nodeFilters
              [NodeFilter.countryFilter (withCodes (newSet eeaCountriesWithoutEu) euCountries)]))
          1 (NodeFilter.nodeFilters [NodeFilter.countryFilter (newSet euCountries)]))
        3 (NodeFilter.nodeFilters [NodeFilter.countryFilter (newSet [CountryCode.US])]))
      4 (NodeFilter.nodeFilters [NodeFilter.countryFilter (newSet [CountryCode.DE])]))
    6
    (NodeFilter.nodeFilters
      [NodeFilter.countryFilter
        (withoutCodes fullSet [CountryCode.RU, CountryCode.BY, CountryCode.None])])

/-- `CreateFilters(constraint)`: the registered filter when present,
otherwise the fail-closed default `NodeFilters{ExcludeAllFilter{}}`. -/
def createFilters (d : Registry) (c : Nat) : NodeFilter :=
  match regLookup d c with
  | some f => f
  | none => NodeFilter.nodeFilters [NodeFilter.excludeAll]

/-- Modelled from the spec: the textual description rendered for a filter by
the `%s` formatting of the external representation (the String methods of
the filter types live in the nodeselection package, outside these sources). -/
def describeFilter : NodeFilter → String
  | NodeFilter.anyFilter => "any"
  | NodeFilter.excludeAll => "exclude all"
  | NodeFilter.countryFilter _ => "country filter"
  | NodeFilter.tagFilter _ _ _ _ => "tag filter"
  | NodeFilter.nodeFilters _ => "filters"
  | NodeFilter.excludeFilter _ => "exclude"
  | NodeFilter.annotated _ _ => "annotated"

/-- The `String()` method of `ConfigurablePlacementRule`: renders the entries
with identifier strictly above 9 as `id:description`, joined by `;` (the Go
map iteration order is unspecified; the model renders in registry list
order, which coincides for the zero- and one-entry listings the claims
describe). -/
def rulesString (d : Registry) : String :=
  String.intercalate ";"
    ((d.filter (fun p => decide (9 < p.1))).map
      (fun p => toString p.1 ++ ":" ++ describeFilter p.2))

/-- The country membership filter for the singleton US set. -/
def cfUS : NodeFilter :=
  NodeFilter.countryFilter (withCodes ∅ [CountryCode.US])

/-- The country membership filter for the singleton DE set. -/
def cfDE : NodeFilter :=
  NodeFilter.countryFilter (withCodes ∅ [CountryCode.DE])

/-- The country membership filter for the singleton FR set. -/
def cfFR : NodeFilter :=
  NodeFilter.countryFilter (withCodes ∅ [CountryCode.FR])

/-- The filter value `country("us")` evaluates to. -/
def usFilter : NodeFilter :=
  NodeFilter.nodeFilters [cfUS]

/-- The filter value `country("de")` evaluates to. -/
def deFilter : NodeFilter :=
  NodeFilter.nodeFilters [cfDE]

/-- The filter value `country("fr")` evaluates to. -/
def frFilter : NodeFilter :=
  NodeFilter.nodeFilters [cfFR]

/-- The registry after seeding the every-country default and the legacy
static rules (the state the definition-string loads start from). -/
def legacyRules : Registry :=
  addLegacyStaticRules newPlacementRules

/-- The fail-closed default filter returned by `CreateFilters` for an
unregistered identifier. -/
def denyAllDefault : NodeFilter :=
  NodeFilter.nodeFilters [NodeFilter.excludeAll]

theorem regLookup_regInsert_ne (d : Registry) (j k : Nat) (f : NodeFilter) (h : k ≠ j) :
    regLookup (regInsert d j f) k = regLookup d k := by
  induction d with
  | nil => simp [regInsert, regLookup, Ne.symm h]
  | cons p rest ih =>
    obtain ⟨k', f'⟩ := p
    by_cases hk : k' = j
    · subst hk
      simp [regInsert, regLookup, Ne.symm h]
    · simp [regInsert, regLookup, hk, ih]

theorem splitChars_no_sep (c : Char) (l : List Char) (h : ∀ x ∈ l, x ≠ c) :
    splitChars c l = [l] := by
  induction l with
  | nil => rfl
  | cons ch rest ih =>
    have hr : splitChars c rest = [rest] :=
      ih (fun x hx => h x (List.mem_cons_of_mem _ hx))
    simp [splitChars, hr, h ch (List.mem_cons_self _ _)]

theorem splitFirst_no_sep (c : Char) (l : List Char) (h : ∀ x ∈ l, x ≠ c) :
    splitFirst c l = none := by
  induction l with
  | nil => rfl
  | cons ch rest ih =>
    simp [splitFirst, h ch (List.mem_cons_self _ _),
      ih (fun x hx => h x (List.mem_cons_of_mem _ hx))]

theorem mem_of_mem_trimCharsWS {x : Char} {l : List Char} (h : x ∈ trimCharsWS l) : x ∈ l := by
  unfold trimCharsWS at h
  rw [List.mem_reverse] at h
  have h1 : x ∈ (l.dropWhile isWS).reverse := (List.dropWhile_sublist _).mem h
  rw [List.mem_reverse] at h1
  exact (List.dropWhile_sublist _).mem h1

theorem countryGo_append (set : LocSet) (t1 t2 : List String) (s' : LocSet)
    (h : countryGo set t1 = some (Except.ok s')) :
    countryGo set (t1 ++ t2) = countryGo s' t2 := by
  induction t1 generalizing set with
  | nil =>
    simp only [countryGo, Option.some.injEq, Except.ok.injEq] at h
    subst h
    rfl
  | cons t ts ih =>
    simp only [countryGo, List.cons_append] at h ⊢
    cases hs : countryStepChars set t.data with
    | none => simp [hs] at h
    | some r =>
      cases r with
      | error e => simp [hs] at h
      | ok s1 => rw [hs] at h; exact ih s1 h

theorem runEntries_append (d d' : Registry) (es1 es2 : List String)
    (h : runEntries d es1 = some (d', Option.none)) :
    runEntries d (es1 ++ es2) = runEntries d' es2 := by
  induction es1 generalizing d with
  | nil =>
    simp only [runEntries, Option.some.injEq, Prod.mk.injEq] at h
    rw [h.1]
    rfl
  | cons e es ih =>
    simp only [runEntries, List.cons_append] at h ⊢
    cases hp : processEntry d e with
    | none => simp [hp] at h
    | some r =>
      obtain ⟨d1, oe⟩ := r
      cases oe with
      | none => rw [hp] at h; exact ih d1 h
      | some err => simp [hp] at h

theorem filter_regInsert_le (d : Registry) (id : Nat) (f : NodeFilter) (h : id ≤ 9) :
    (regInsert d id f).filter (fun p => decide (9 < p.1))
      = d.filter (fun p => decide (9 < p.1)) := by
  induction d with
  | nil => simp [regInsert, Nat.not_lt.mpr h]
  | cons p rest ih =>
    obtain ⟨k', f'⟩ := p
    by_cases hk : k' = id
    · subst hk
      simp [regInsert, List.filter, Nat.not_lt.mpr h]
    · simp only [regInsert, if_neg hk]
      simp [List.filter, ih]

theorem matchFilter_nodeFilters_append (l1 l2 : List NodeFilter) (n : NodeAttrs) :
    matchFilter (NodeFilter.nodeFilters (l1 ++ l2)) n
      = (matchFilter (NodeFilter.nodeFilters l1) n
          && matchFilter (NodeFilter.nodeFilters l2) n) := by
  induction l1 with
  | nil => simp [matchFilter]
  | cons f rest ih => simp [matchFilter, ih, Bool.and_assoc]

/-- C1 counterexample: evaluating `placement(11)` against a registry in
which 11 is not registered yields the nil interface (the Go map zero value),
which is not the fail-closed DenyAll filter; and loading a definition whose
forward reference is the whole expression does not register a deny-all
filter but hits the failed type assertion `val.(nodeselection.NodeFilter)`
on nil, a runtime fault, refuting the claim that the lookup yields DenyAll
rather than an absent/nil value. -/
theorem c1_counterexample :
    mitoEval "placement(11)" newPlacementRules = some (Except.ok Value.nilFilter)
    ∧ Value.nilFilter ≠ Value.filter denyAllDefault
    ∧ addPlacementFromString newPlacementRules "10:placement(11);11:country(\"us\")"
        = Option.none :=
  ⟨rfl, fun h => Value.noConfusion h, rfl⟩

/-- C1 (amended): the `placement(id)` built-in is a direct map access, so an
id that is not yet registered yields the map's zero value (the nil filter),
not the registry's DenyAll default and not an error; a forward reference
used as the whole expression of an entry makes the load fail with a runtime
fault at the nil type assertion; the fail-closed DenyAll default is applied
only by the `CreateFilters` lookup. -/
theorem c1_amended :
    (∀ (d : Registry) (ix : Int), regLookup d (placementKey ix) = Option.none →
        placementBuiltin d ix = Value.nilFilter)
    ∧ addPlacementFromString newPlacementRules "10:placement(11);11:country(\"us\")"
        = Option.none
    ∧ (∀ (d : Registry) (c : Nat), regLookup d c = Option.none →
        createFilters d c = denyAllDefault) := by
  refine ⟨?_, rfl, ?_⟩
  · intro d ix h
    unfold placementBuiltin
    rw [h]
  · intro d c h
    unfold createFilters
    rw [h]
    rfl

/-- Witness for C1 (amended) at concrete inputs. -/
theorem c1_witness :
    placementBuiltin newPlacementRules 11 = Value.nilFilter
    ∧ createFilters newPlacementRules 999 = denyAllDefault :=
  ⟨c1_amended.1 newPlacementRules 11 rfl, c1_amended.2.2 newPlacementRules 999 rfl⟩

/-- C2: `CreateFilters` never fails: a registered id returns its registered
filter, and an unregistered id returns the non-nil fail-closed default
`NodeFilters{ExcludeAllFilter{}}`, which matches no node attributes. -/
theorem c2_lookup_never_fails (d : Registry) (c : Nat) :
    (∀ f, regLookup d c = some f → createFilters d c = f)
    ∧ (regLookup d c = Option.none →
        createFilters d c = denyAllDefault
        ∧ ∀ n, matchFilter (createFilters d c) n = false) := by
  constructor
  · intro f h
    unfold createFilters
    rw [h]
  · intro h
    have hc : createFilters d c = denyAllDefault := by
      unfold createFilters
      rw [h]
      rfl
    refine ⟨hc, fun n => ?_⟩
    rw [hc]
    simp [denyAllDefault, matchFilter]

/-- Witness for C2 at a never-registered id. -/
theorem c2_witness :
    createFilters newPlacementRules 999 = denyAllDefault
    ∧ matchFilter (createFilters newPlacementRules 999) ⟨CountryCode.US, []⟩ = false := by
  have h := (c2_lookup_never_fails newPlacementRules 999).2 rfl
  exact ⟨h.1, h.2 ⟨CountryCode.US, []⟩⟩

/-- C3 counterexample: `country()` with an empty token list does not fail —
it returns a membership filter over the empty set — and the error for an
invalid token is `invalid country code %q` applied to the converted code,
which at that point is always the `None` sentinel, so two different
offending tokens produce the identical error: the error does not name the
offending input token. -/
theorem c3_counterexample :
    countryBuiltin []
        = some (Except.ok (NodeFilter.nodeFilters [NodeFilter.countryFilter ∅]))
    ∧ countryBuiltin ["xx"]
        = some (Except.error (Err.invalidCountryCode CountryCode.None))
    ∧ countryBuiltin ["zz"]
        = some (Except.error (Err.invalidCountryCode CountryCode.None)) :=
  ⟨rfl, rfl, rfl⟩

/-- C3 (amended): `country()` with an empty token list succeeds, returning a
membership filter over the empty set; a token that is neither a special
token nor a recognized country string fails with an invalid-country-code
error that carries the converted code — always the `None` sentinel, not the
offending input token — and the error aborts the token loop and the
built-in. -/
theorem c3_amended :
    countryBuiltin []
        = some (Except.ok (NodeFilter.nodeFilters [NodeFilter.countryFilter ∅]))
    ∧ (∀ (set : LocSet) (neg : Bool) (tokC : List Char),
        ¬(String.mk (tokC.map Char.toLower) = "all"
            ∨ String.mk (tokC.map Char.toLower) = "*"
            ∨ String.mk (tokC.map Char.toLower) = "any") →
        String.mk (tokC.map Char.toLower) ≠ "none" →
        String.mk (tokC.map Char.toLower) ≠ "eu" →
        String.mk (tokC.map Char.toLower) ≠ "eea" →
        toCountryCode (String.mk tokC) = CountryCode.None →
        countryTok set neg tokC
          = some (Except.error (Err.invalidCountryCode CountryCode.None)))
    ∧ (∀ (set : LocSet) (t : String) (rest : List String) (e : Err),
        countryStepChars set t.data = some (Except.error e) →
        countryGo set (t :: rest) = some (Except.error e))
    ∧ (∀ (tokens : List String) (e : Err),
        countryGo ∅ tokens = some (Except.error e) →
        countryBuiltin tokens = some (Except.error e)) := by
  refine ⟨rfl, ?_, ?_, ?_⟩
  · intro set neg tokC h1 h2 h3 h4 hcode
    unfold countryTok
    rw [if_neg h1, if_neg h2, if_neg h3, if_neg h4]
    simp [hcode]
  · intro set t rest e h
    unfold countryGo
    rw [h]
  · intro tokens e h
    unfold countryBuiltin
    rw [h]

/-- Witness for C3 (amended) at concrete inputs. -/
theorem c3_witness :
    countryTok ∅ false ['x', 'x']
        = some (Except.error (Err.invalidCountryCode CountryCode.None))
    ∧ countryBuiltin []
        = some (Except.ok (NodeFilter.nodeFilters [NodeFilter.countryFilter ∅])) :=
  ⟨c3_amended.2.1 ∅ false ['x', 'x'] (by decide) (by decide) (by decide) (by decide)
      (by decide),
    c3_amended.1⟩

/-- C4 counterexample: with the concrete filters produced by
`country("us")`, `country("de")` and `country("fr")`, the values of
`(A && B) && C`, `A && (B && C)` and `all(A, B, C)` are pairwise distinct —
the `&&` handler builds the two-member list `NodeFilters{filter1, filter2}`
without concatenating members, so the groupings nest instead of
normalizing to one flat member list. -/
theorem c4_counterexample :
    opAndBuiltin (Value.filter usFilter) (Value.filter deFilter)
        = Except.ok (Value.filter (NodeFilter.nodeFilters [usFilter, deFilter]))
    ∧ opAndBuiltin (Value.filter (NodeFilter.nodeFilters [usFilter, deFilter]))
          (Value.filter frFilter)
        = Except.ok (Value.filter (NodeFilter.nodeFilters
            [NodeFilter.nodeFilters [usFilter, deFilter], frFilter]))
    ∧ opAndBuiltin (Value.filter usFilter)
          (Value.filter (NodeFilter.nodeFilters [deFilter, frFilter]))
        = Except.ok (Value.filter (NodeFilter.nodeFilters
            [usFilter, NodeFilter.nodeFilters [deFilter, frFilter]]))
    ∧ allBuiltin [[cfUS], [cfDE], [cfFR]]
        = NodeFilter.nodeFilters [cfUS, cfDE, cfFR]
    ∧ NodeFilter.nodeFilters [NodeFilter.nodeFilters [usFilter, deFilter], frFilter]
        ≠ NodeFilter.nodeFilters [usFilter, NodeFilter.nodeFilters [deFilter, frFilter]]
    ∧ NodeFilter.nodeFilters [NodeFilter.nodeFilters [usFilter, deFilter], frFilter]
        ≠ NodeFilter.nodeFilters [cfUS, cfDE, cfFR]
    ∧ NodeFilter.nodeFilters [usFilter, NodeFilter.nodeFilters [deFilter, frFilter]]
        ≠ NodeFilter.nodeFilters [cfUS, cfDE, cfFR] := by
  refine ⟨rfl, rfl, rfl, rfl, ?_, ?_, ?_⟩
  · simp [usFilter, deFilter, frFilter]
  · simp [usFilter, deFilter, frFilter, cfUS, cfDE, cfFR]
  · simp [usFilter, deFilter, frFilter, cfUS, cfDE, cfFR]

/-- C4 (amended): the `&&` handler always produces a two-member conjunction
whose members are the operand values — so the two groupings of `&&` nest —
while only `all(...)` concatenates the member lists of its arguments into
one flat conjunction. -/
theorem c4_amended (A B C : NodeFilter) (la lb lc : List NodeFilter) :
    opAndBuiltin (Value.filter A) (Value.filter B)
        = Except.ok (Value.filter (NodeFilter.nodeFilters [A, B]))
    ∧ opAndBuiltin (Value.filter (NodeFilter.nodeFilters [A, B])) (Value.filter C)
        = Except.ok (Value.filter (NodeFilter.nodeFilters
            [NodeFilter.nodeFilters [A, B], C]))
    ∧ opAndBuiltin (Value.filter A) (Value.filter (NodeFilter.nodeFilters [B, C]))
        = Except.ok (Value.filter (NodeFilter.nodeFilters
            [A, NodeFilter.nodeFilters [B, C]]))
    ∧ allBuiltin [la, lb, lc] = NodeFilter.nodeFilters (la ++ lb ++ lc) := by
  refine ⟨rfl, rfl, rfl, ?_⟩
  simp [allBuiltin, List.append_assoc]

/-- C5: conjunction is associative and commutative with respect to match
outcome — both `&&` groupings and the flat `all(...)` conjunction match a
node exactly when every one of the three component filters matches it. -/
theorem c5_conjunction_match (A B C : NodeFilter) (la lb lc : List NodeFilter)
    (n : NodeAttrs) :
    opAndBuiltin (Value.filter A) (Value.filter B)
        = Except.ok (Value.filter (NodeFilter.nodeFilters [A, B]))
    ∧ matchFilter (NodeFilter.nodeFilters [NodeFilter.nodeFilters [A, B], C]) n
        = (matchFilter A n && matchFilter B n && matchFilter C n)
    ∧ matchFilter (NodeFilter.nodeFilters [A, NodeFilter.nodeFilters [B, C]]) n
        = (matchFilter A n && matchFilter B n && matchFilter C n)
    ∧ matchFilter (allBuiltin [la, lb, lc]) n
        = (matchFilter (NodeFilter.nodeFilters la) n
            && matchFilter (NodeFilter.nodeFilters lb) n
            && matchFilter (NodeFilter.nodeFilters lc) n) := by
  refine ⟨rfl, ?_, ?_, ?_⟩
  · simp [matchFilter, Bool.and_assoc]
  · simp [matchFilter, Bool.and_assoc]
  · have hall : allBuiltin [la, lb, lc] = NodeFilter.nodeFilters (la ++ lb ++ lc) := by
      simp [allBuiltin, List.append_assoc]
    rw [hall, matchFilter_nodeFilters_append, matchFilter_nodeFilters_append]

/-- C6 counterexample: a leading `!` on the special token `all` does not
switch the `With` operation to `Without` — the `all` case replaces the
accumulated set with the full set without consulting `apply`, so
`country("!all")` evaluates exactly like `country("all")` to the full,
nonempty set (a `Without` application starting from the empty accumulated
set could only produce the empty set). -/
theorem c6_counterexample :
    countryGo ∅ ["!all"] = some (Except.ok fullSet)
    ∧ countryGo ∅ ["all"] = some (Except.ok fullSet)
    ∧ countryBuiltin ["!all"] = countryBuiltin ["all"]
    ∧ fullSet ≠ (∅ : LocSet) :=
  ⟨rfl, rfl, rfl, by decide⟩

/-- C6 (amended): a leading `!` switches `With` to `Without` for exactly
that one token when the token is `none`, `eu`, `eea` or a recognized
country code, leaving the other tokens' effects unchanged (each loop step
only transforms the accumulated set); but for the special tokens
`all`/`*`/`any` the `!` is stripped and ignored: the token replaces the
accumulated set with the full set whether negated or not. -/
theorem c6_amended :
    (∀ (set : LocSet) (tokC : List Char),
        (String.mk (tokC.map Char.toLower) = "all"
          ∨ String.mk (tokC.map Char.toLower) = "*"
          ∨ String.mk (tokC.map Char.toLower) = "any") →
        countryStepChars set ('!' :: tokC) = some (Except.ok fullSet)
        ∧ countryTok set false tokC = some (Except.ok fullSet))
    ∧ (∀ set : LocSet,
        countryStepChars set ('!' :: "none".data)
          = some (Except.ok (withoutCodes set [CountryCode.None]))
        ∧ countryStepChars set "none".data
          = some (Except.ok (withCodes set [CountryCode.None])))
    ∧ (∀ set : LocSet,
        countryStepChars set ('!' :: "eu".data)
          = some (Except.ok (withoutCodes set euCountries))
        ∧ countryStepChars set "eu".data
          = some (Except.ok (withCodes set euCountries)))
    ∧ (∀ set : LocSet,
        countryStepChars set ('!' :: "eea".data)
          = some (Except.ok (withoutCodes (withoutCodes set euCountries)
              eeaCountriesWithoutEu))
        ∧ countryStepChars set "eea".data
          = some (Except.ok (withCodes (withCodes set euCountries)
              eeaCountriesWithoutEu)))
    ∧ (∀ (set : LocSet) (c : Char) (rest : List Char),
        c ≠ '!' →
        ¬(String.mk ((c :: rest).map Char.toLower) = "all"
          ∨ String.mk ((c :: rest).map Char.toLower) = "*"
          ∨ String.mk ((c :: rest).map Char.toLower) = "any") →
        String.mk ((c :: rest).map Char.toLower) ≠ "none" →
        String.mk ((c :: rest).map Char.toLower) ≠ "eu" →
        String.mk ((c :: rest).map Char.toLower) ≠ "eea" →
        toCountryCode (String.mk (c :: rest)) ≠ CountryCode.None →
        countryStepChars set ('!' :: c :: rest)
          = some (Except.ok (withoutCodes set [toCountryCode (String.mk (c :: rest))]))
        ∧ countryStepChars set (c :: rest)
          = some (Except.ok (withCodes set [toCountryCode (String.mk (c :: rest))]))) := by
  refine ⟨?_, fun set => ⟨rfl, rfl⟩, fun set => ⟨rfl, rfl⟩, fun set => ⟨rfl, rfl⟩, ?_⟩
  · intro set tokC h
    constructor
    · show countryTok set true tokC = some (Except.ok fullSet)
      unfold countryTok
      rw [if_pos h]
    · unfold countryTok
      rw [if_pos h]
  · intro set c rest hc h1 h2 h3 h4 hcode
    have hneg : countryTok set true (c :: rest)
        = some (Except.ok (withoutCodes set [toCountryCode (String.mk (c :: rest))])) := by
      unfold countryTok
      rw [if_neg h1, if_neg h2, if_neg h3, if_neg h4]
      simp [countryApply, hcode]
    have hpos : countryTok set false (c :: rest)
        = some (Except.ok (withCodes set [toCountryCode (String.mk (c :: rest))])) := by
      unfold countryTok
      rw [if_neg h1, if_neg h2, if_neg h3, if_neg h4]
      simp [countryApply, hcode]
    constructor
    · exact hneg
    · show (if c = '!' then countryTok set true rest else countryTok set false (c :: rest))
          = some (Except.ok (withCodes set [toCountryCode (String.mk (c :: rest))]))
      rw [if_neg hc]
      exact hpos

/-- Witness for C6 (amended) at concrete inputs: `!us` removes US from the
accumulated set, and `!all` still yields the full set. -/
theorem c6_witness :
    countryStepChars (newSet [CountryCode.DE]) ('!' :: 'u' :: 's' :: [])
        = some (Except.ok (withoutCodes (newSet [CountryCode.DE])
            [toCountryCode (String.mk ('u' :: 's' :: []))]))
    ∧ countryStepChars ∅ ('!' :: 'a' :: 'l' :: 'l' :: []) = some (Except.ok fullSet) :=
  ⟨(c6_amended.2.2.2.2 (newSet [CountryCode.DE]) 'u' ['s'] (by decide) (by decide)
      (by decide) (by decide) (by decide) (by decide)).1,
   (c6_amended.1 ∅ ['a', 'l', 'l'] (by decide)).1⟩

/-- C7: loading commits entry by entry — the loop stops at the first failing
entry with an error, keeping the registrations of the earlier entries of the
same call and all previous registrations; concretely, the load of
`12:country("de");abc:country("us");13:country("fr")` evaluates the `abc`
entry's expression, fails at the non-integer id, registers 12 but neither
`abc` nor 13, and leaves every other binding of the registry unchanged. -/
theorem c7_entrywise_commit :
    (∀ (d : Registry) (es1 : List String) (b : String) (rest : List String)
        (d' d'' : Registry) (e : Err),
        runEntries d es1 = some (d', Option.none) →
        processEntry d' b = some (d'', some e) →
        runEntries d (es1 ++ b :: rest) = some (d'', some e))
    ∧ (∀ d : Registry,
        addPlacementFromString d "12:country(\"de\");abc:country(\"us\");13:country(\"fr\")"
          = some (regInsert d 12 deFilter, some (Err.atoiFailed "abc")))
    ∧ (∀ (d : Registry) (k : Nat), k ≠ 12 →
        regLookup (regInsert d 12 deFilter) k = regLookup d k) := by
  refine ⟨?_, fun d => rfl, fun d k hk => regLookup_regInsert_ne d 12 k deFilter hk⟩
  intro d es1 b rest d' d'' e h1 h2
  rw [runEntries_append d d' es1 (b :: rest) h1]
  simp [runEntries, h2]

/-- Witness for C7 at concrete inputs. -/
theorem c7_witness :
    runEntries newPlacementRules
        (["12:country(\"de\")"] ++ "abc:country(\"us\")" :: ["13:country(\"fr\")"])
      = some (regInsert newPlacementRules 12 deFilter, some (Err.atoiFailed "abc"))
    ∧ regLookup (regInsert newPlacementRules 12 deFilter) 0
        = regLookup newPlacementRules 0 :=
  ⟨c7_entrywise_commit.1 newPlacementRules ["12:country(\"de\")"] "abc:country(\"us\")"
      ["13:country(\"fr\")"] (regInsert newPlacementRules 12 deFilter)
      (regInsert newPlacementRules 12 deFilter) (Err.atoiFailed "abc") rfl rfl,
   c7_entrywise_commit.2.2 newPlacementRules 0 (by decide)⟩

/-- C8: the external description renders only identifiers strictly above 9
as `id:description` joined by `;` — registering anything at a reserved id
(at most 9) leaves the description unchanged, the registry holding only the
built-ins describes as the empty string, and after additionally loading
`10:country("us")` the description is exactly the entry for 10. -/
theorem c8_describe_user_ids_only :
    (∀ (d : Registry) (id : Nat) (f : NodeFilter), id ≤ 9 →
        rulesString (regInsert d id f) = rulesString d)
    ∧ rulesString legacyRules = ""
    ∧ (addPlacementFromString legacyRules "10:country(\"us\")").map
          (fun r => rulesString r.1)
        = some ("10:" ++ describeFilter usFilter) := by
  refine ⟨?_, rfl, rfl⟩
  intro d id f h
  unfold rulesString
  rw [filter_regInsert_le d id f h]

/-- Witness for C8 at concrete inputs. -/
theorem c8_witness :
    rulesString (regInsert legacyRules 3 NodeFilter.anyFilter) = rulesString legacyRules
    ∧ rulesString legacyRules = "" :=
  ⟨c8_describe_user_ids_only.1 legacyRules 3 NodeFilter.anyFilter (by decide),
   c8_describe_user_ids_only.2.1⟩

/-- C9: a non-empty definition entry containing no `:` does not reach the
error return of `AddPlacementFromString`: splitting it on `:` yields a
single element, so reading `idDef[1]` is an out-of-range index — a runtime
fault (modelled `Option.none`), not an error result. -/
theorem c9_no_colon_entry_runtime_fault (d : Registry) (entry : String)
    (hsemi : ';' ∉ entry.data) (hcolon : ':' ∉ entry.data)
    (hne : goTrimSpace entry ≠ "") :
    addPlacementFromString d entry = Option.none := by
  have hpe : processEntry d entry = Option.none := by
    have hsp : splitN2 (goTrimSpace entry) ':' = [goTrimSpace entry] := by
      unfold splitN2
      rw [splitFirst_no_sep ':' (goTrimSpace entry).data
        (fun x hx he => hcolon (he ▸ mem_of_mem_trimCharsWS hx))]
    simp only [processEntry]
    rw [if_neg hne, hsp]
  unfold addPlacementFromString goSplit
  rw [splitChars_no_sep ';' entry.data (fun x hx he => hsemi (he ▸ hx))]
  simp [runEntries, hpe]

/-- Witness for C9 at the concrete entry `foo`. -/
theorem c9_witness :
    ((';' ∉ "foo".data) ∧ (':' ∉ "foo".data) ∧ goTrimSpace "foo" ≠ "")
    ∧ addPlacementFromString newPlacementRules "foo" = Option.none :=
  ⟨⟨by decide, by decide, by decide⟩,
   c9_no_colon_entry_runtime_fault newPlacementRules "foo" (by decide) (by decide)
     (by decide)⟩

/-- C10: when the `country` built-in reaches an empty-string token it reads
`country[0]` before any validity check — an out-of-range index, a runtime
fault (modelled `Option.none`), so the invalid-token error path is never
taken for that token. -/
theorem c10_empty_token_runtime_fault :
    (∀ (set : LocSet) (rest : List String),
        countryGo set ("" :: rest) = Option.none)
    ∧ (∀ (set : LocSet) (toks1 toks2 : List String) (s' : LocSet),
        countryGo set toks1 = some (Except.ok s') →
        countryGo set (toks1 ++ "" :: toks2) = Option.none)
    ∧ countryBuiltin ["us", "", "de"] = Option.none := by
  refine ⟨fun set rest => rfl, ?_, rfl⟩
  intro set toks1 toks2 s' h
  rw [countryGo_append set toks1 ("" :: toks2) s' h]
  rfl

/-- Witness for C10 at concrete inputs. -/
theorem c10_witness :
    countryGo ∅ (["us"] ++ "" :: ["de"]) = Option.none :=
  c10_empty_token_runtime_fault.2.1 ∅ ["us"] ["de"] (withCodes ∅ [CountryCode.US]) rfl

end Storj
